import Mathlib

/-!
Shallow embedding of the vertical-composition engine in `design.py`
(geometry module, subject-region resolver, subtitle locator, filtergraph
synthesizer, composition driver), together with proofs that settle the
frozen claims about it.

Python integers are modelled as `ℤ`; Python real arithmetic (float) is
modelled by exact rationals `ℚ`; Python's `int()` cast (truncation toward
zero) is `pyInt`; fallible external calls (region detector, dimension
probe, render engine) are oracle functions returning `Except`.
-/

/-- Python's `int(q)` cast: truncation toward zero. -/
def pyInt (q : ℚ) : ℤ := if q < 0 then ⌈q⌉ else ⌊q⌋

/-- A crop rectangle `(x, y, w, h)`: integer pixel offsets and extents. -/
structure Rect where
  x : ℤ
  y : ℤ
  w : ℤ
  h : ℤ
deriving DecidableEq, Repr

/-- The Rectangle invariant of the data model, relative to a frame
`(fw, fh)`: nonnegative origin, extents positive, rectangle inside the
frame. -/
def Rect.validIn (r : Rect) (fw fh : ℤ) : Prop :=
  0 ≤ r.x ∧ 0 ≤ r.y ∧ r.x + r.w ≤ fw ∧ r.y + r.h ≤ fh ∧ 0 < r.w ∧ 0 < r.h

instance (r : Rect) (fw fh : ℤ) : Decidable (r.validIn fw fh) := by
  unfold Rect.validIn; infer_instance

/-- The function `expand_crop_box(crop_box, video_w, video_h, expansion_factor)` from
`design.py`: centroid of the original box, extents scaled by the factor and
cast with `int()`, origin recentred and cast with `int()`, origin clamped to
`max(0, ·)`, extents clamped to stay inside the video bounds. -/
def expand_crop_box (crop_box : Rect) (video_w video_h : ℤ)
    (expansion_factor : ℚ) : Rect :=
  let center_x : ℚ := (crop_box.x : ℚ) + (crop_box.w : ℚ) / 2
  let center_y : ℚ := (crop_box.y : ℚ) + (crop_box.h : ℚ) / 2
  let new_w : ℤ := pyInt ((crop_box.w : ℚ) * expansion_factor)
  let new_h : ℤ := pyInt ((crop_box.h : ℚ) * expansion_factor)
  let new_x : ℤ := pyInt (center_x - (new_w : ℚ) / 2)
  let new_y : ℤ := pyInt (center_y - (new_h : ℚ) / 2)
  let new_x : ℤ := max 0 new_x
  let new_y : ℤ := max 0 new_y
  let new_w : ℤ := min new_w (video_w - new_x)
  let new_h : ℤ := min new_h (video_h - new_y)
  ⟨new_x, new_y, new_w, new_h⟩

/-- The spec's single-pass expansion algorithm, written with mathematical
`floor` exactly as the spec states it: centroid `(x + w/2, y + h/2)`, new
extents `⌊w·factor⌋` and `⌊h·factor⌋`, new origin `⌊cx − w'/2⌋` and
`⌊cy − h'/2⌋`, origin clamped to `max(0, ·)` first, then extents clamped to
`min(w', frame_w − x')` and `min(h', frame_h − y')`. -/
def expandSpecAlg (r : Rect) (frame_w frame_h : ℤ) (factor : ℚ) : Rect :=
  let cx : ℚ := (r.x : ℚ) + (r.w : ℚ) / 2
  let cy : ℚ := (r.y : ℚ) + (r.h : ℚ) / 2
  let w1 : ℤ := ⌊(r.w : ℚ) * factor⌋
  let h1 : ℤ := ⌊(r.h : ℚ) * factor⌋
  let x1 : ℤ := max 0 ⌊cx - (w1 : ℚ) / 2⌋
  let y1 : ℤ := max 0 ⌊cy - (h1 : ℚ) / 2⌋
  ⟨x1, y1, min w1 (frame_w - x1), min h1 (frame_h - y1)⟩

lemma pyInt_of_nonneg {q : ℚ} (h : 0 ≤ q) : pyInt q = ⌊q⌋ := by
  simp [pyInt, not_lt.mpr h]

lemma pyInt_mono : Monotone pyInt := by
  intro a b hab
  unfold pyInt
  by_cases ha : a < 0
  · by_cases hb : b < 0
    · simp only [if_pos ha, if_pos hb]
      exact Int.ceil_le_ceil hab
    · simp only [if_pos ha, if_neg hb]
      calc ⌈a⌉ ≤ ⌈(0 : ℚ)⌉ := Int.ceil_le_ceil ha.le
        _ = 0 := by simp
        _ ≤ ⌊b⌋ := Int.le_floor.mpr (by push_neg at hb; simpa using hb)
  · have hb : ¬ b < 0 := fun hb => ha (lt_of_le_of_lt hab hb)
    simp only [if_neg ha, if_neg hb]
    exact Int.floor_le_floor hab

lemma max_zero_pyInt_eq_max_zero_floor (q : ℚ) :
    max 0 (pyInt q) = max 0 ⌊q⌋ := by
  unfold pyInt
  by_cases h : q < 0
  · simp only [if_pos h]
    have h1 : ⌈q⌉ ≤ 0 := by
      calc ⌈q⌉ ≤ ⌈(0 : ℚ)⌉ := Int.ceil_le_ceil h.le
        _ = 0 := by simp
    have h2 : ⌊q⌋ ≤ 0 := by
      calc ⌊q⌋ ≤ ⌊(0 : ℚ)⌋ := Int.floor_le_floor h.le
        _ = 0 := by simp
    simp [max_eq_left h1, max_eq_left h2]
  · simp [if_neg h]

/-- C1: on every rectangle and every positive factor the code's
`expand_crop_box` coincides with the spec's stated algorithm (the code's
`int()` truncation only differs from `floor` on negative intermediate
origins, which the `max(0, ·)` clamp erases); in particular
`expand((0,0,100,100), 150, 150, 3) = (0,0,150,150)`. -/
theorem expand_crop_box_eq_specAlg (r : Rect) (fw fh : ℤ) (f : ℚ)
    (hr : r.validIn fw fh) (hf : 0 < f) :
    expand_crop_box r fw fh f = expandSpecAlg r fw fh f := by
  obtain ⟨-, -, -, -, hw, hh⟩ := hr
  have hwq : (0 : ℚ) ≤ (r.w : ℚ) * f :=
    mul_nonneg (by exact_mod_cast hw.le) hf.le
  have hhq : (0 : ℚ) ≤ (r.h : ℚ) * f :=
    mul_nonneg (by exact_mod_cast hh.le) hf.le
  unfold expand_crop_box expandSpecAlg
  simp only [pyInt_of_nonneg hwq, pyInt_of_nonneg hhq,
    max_zero_pyInt_eq_max_zero_floor]

/-- Witness for C1: the boundary-clamp example of the spec, evaluated on
both the code and the spec algorithm. -/
theorem expand_crop_box_eq_specAlg_witness :
    expand_crop_box ⟨0, 0, 100, 100⟩ 150 150 3 =
      expandSpecAlg ⟨0, 0, 100, 100⟩ 150 150 3 ∧
    expand_crop_box ⟨0, 0, 100, 100⟩ 150 150 3 = ⟨0, 0, 150, 150⟩ := by
  refine ⟨expand_crop_box_eq_specAlg ⟨0, 0, 100, 100⟩ 150 150 3 ?_ ?_, ?_⟩
  · decide
  · norm_num
  · unfold expand_crop_box pyInt
    norm_num [Int.ceil_neg]

/-- One time-ranged region of a `DetectedRegionSet`:
`{start, end, x, y, w, h}` (the `end` attribute is named `stop` here because
`end` is a Lean keyword). -/
structure Segment where
  start : ℚ
  stop : ℚ
  x : ℤ
  y : ℤ
  w : ℤ
  h : ℤ
deriving DecidableEq, Repr

/-- The sort key of `pick_primary_crop`: the region's time span
`end - start`. -/
def segSpan (s : Segment) : ℚ := s.stop - s.start

/-- Insert one element into a list that is already sorted by descending
`key`, placing it before the first element whose key is `≤` its own.  This is
the insertion step of a stable descending sort. -/
def insertDescBy {α : Type*} (key : α → ℚ) (a : α) : List α → List α
  | [] => [a]
  | b :: l => if key b ≤ key a then a :: b :: l else b :: insertDescBy key a l

/-- Stable descending insertion sort by `key`: the unique stable sort, hence
the model of Python's `sorted(segs, key=..., reverse=True)` (Python's sort is
documented stable, and `reverse=True` preserves the original order of
elements with equal keys). -/
def sortDescBy {α : Type*} (key : α → ℚ) : List α → List α
  | [] => []
  | a :: l => insertDescBy key a (sortDescBy key l)

/-- The function `pick_primary_crop(crops_obj)` from `design.py`: `None` on an empty
segment list, otherwise sort the segments by descending time span, take the
first, and return its rectangle unless a dimension is non-positive. -/
def pick_primary_crop (segs : List Segment) : Option Rect :=
  match segs with
  | [] => none
  | _ :: _ =>
    match sortDescBy segSpan segs with
    | [] => none
    | s :: _ => if 0 < min s.w s.h then some ⟨s.x, s.y, s.w, s.h⟩ else none

lemma insertDescBy_ne_nil {α : Type*} (key : α → ℚ) (a : α) (l : List α) :
    insertDescBy key a l ≠ [] := by
  cases l with
  | nil => simp [insertDescBy]
  | cons b t =>
    unfold insertDescBy
    split <;> simp

lemma sortDescBy_eq_nil_iff {α : Type*} (key : α → ℚ) (l : List α) :
    sortDescBy key l = [] ↔ l = [] := by
  cases l with
  | nil => simp [sortDescBy]
  | cons a t =>
    simp only [sortDescBy, List.cons_ne_nil, iff_false]
    exact insertDescBy_ne_nil key a _

/-- The head of the stable descending sort is the first element of the
original list attaining the maximal key. -/
lemma sortDescBy_head_first_max {α : Type*} (key : α → ℚ) :
    ∀ (l : List α) (a : α) (t : List α), sortDescBy key l = a :: t →
      ∃ pre post, l = pre ++ a :: post ∧ (∀ b ∈ l, key b ≤ key a) ∧
        ∀ b ∈ pre, key b < key a := by
  intro l
  induction l with
  | nil => intro a t h; simp [sortDescBy] at h
  | cons x xs ih =>
    intro a t h
    simp only [sortDescBy] at h
    rcases hxs : sortDescBy key xs with _ | ⟨y, ys⟩
    · have hx : xs = [] := (sortDescBy_eq_nil_iff key xs).mp hxs
      subst hx
      simp only [hxs, insertDescBy, List.cons.injEq] at h
      obtain ⟨rfl, rfl⟩ := h
      exact ⟨[], [], by simp, by simp, by simp⟩
    · rw [hxs] at h
      unfold insertDescBy at h
      obtain ⟨pre0, post0, hsplit, hmax, hpre⟩ := ih y ys hxs
      by_cases hc : key y ≤ key x
      · rw [if_pos hc] at h
        obtain ⟨rfl, rfl⟩ := List.cons.injEq .. |>.mp h
        refine ⟨[], xs, by simp, ?_, by simp⟩
        intro b hb
        rcases List.mem_cons.mp hb with rfl | hb
        · exact le_refl _
        · exact le_trans (hmax b hb) hc
      · rw [if_neg hc] at h
        push_neg at hc
        obtain ⟨rfl, rfl⟩ := List.cons.injEq .. |>.mp h
        refine ⟨x :: pre0, post0, by simp [hsplit], ?_, ?_⟩
        · intro b hb
          rcases List.mem_cons.mp hb with rfl | hb
          · exact hc.le
          · exact hmax b hb
        · intro b hb
          rcases List.mem_cons.mp hb with rfl | hb
          · exact hc
          · exact hpre b hb

/-- C6 (amended): on a non-empty segment list, `pick_primary_crop` selects a
segment of maximal time span `end - start`, breaking ties by earliest
position in the returned sequence, and yields its rectangle (or `None` if a
dimension is non-positive). -/
theorem pick_primary_crop_selects_first_longest (segs : List Segment)
    (h : segs ≠ []) :
    ∃ pre post s, segs = pre ++ s :: post ∧
      (∀ t ∈ segs, segSpan t ≤ segSpan s) ∧
      (∀ t ∈ pre, segSpan t < segSpan s) ∧
      pick_primary_crop segs =
        (if 0 < min s.w s.h then some ⟨s.x, s.y, s.w, s.h⟩ else none) := by
  rcases hsort : sortDescBy segSpan segs with _ | ⟨s, rest⟩
  · exact absurd ((sortDescBy_eq_nil_iff segSpan segs).mp hsort) h
  · obtain ⟨pre, post, hsplit, hmax, hpre⟩ :=
      sortDescBy_head_first_max segSpan segs s rest hsort
    refine ⟨pre, post, s, hsplit, hmax, hpre, ?_⟩
    rcases segs with _ | ⟨a, t⟩
    · exact absurd rfl h
    · simp only [pick_primary_crop, hsort]

/-- Witness for C6 (amended): two regions of spans 1 and 5; the second,
longer one is selected and its rectangle returned. -/
theorem pick_primary_crop_selects_first_longest_witness :
    ∃ pre post s,
      [(⟨0, 1, 1, 1, 10, 10⟩ : Segment), ⟨0, 5, 2, 2, 20, 20⟩] =
        pre ++ s :: post ∧
      (∀ t ∈ [(⟨0, 1, 1, 1, 10, 10⟩ : Segment), ⟨0, 5, 2, 2, 20, 20⟩],
        segSpan t ≤ segSpan s) ∧
      (∀ t ∈ pre, segSpan t < segSpan s) ∧
      pick_primary_crop [(⟨0, 1, 1, 1, 10, 10⟩ : Segment), ⟨0, 5, 2, 2, 20, 20⟩] =
        (if 0 < min s.w s.h then some ⟨s.x, s.y, s.w, s.h⟩ else none) :=
  pick_primary_crop_selects_first_longest _ (by simp)

/-- C6 counterexample: two regions with equal spans where the first element
of the sequence has the later `start`; `pick_primary_crop` returns the
rectangle of the first-listed region, not of the one with the earlier
`start`, refuting the claim's "first-occurring (by start)" tie-break. -/
theorem pick_primary_crop_tie_not_by_start :
    segSpan ⟨10, 12, 1, 1, 5, 5⟩ = segSpan ⟨0, 2, 2, 2, 6, 6⟩ ∧
    (⟨0, 2, 2, 2, 6, 6⟩ : Segment).start < (⟨10, 12, 1, 1, 5, 5⟩ : Segment).start ∧
    pick_primary_crop [⟨10, 12, 1, 1, 5, 5⟩, ⟨0, 2, 2, 2, 6, 6⟩] =
      some ⟨1, 1, 5, 5⟩ ∧
    pick_primary_crop [⟨10, 12, 1, 1, 5, 5⟩, ⟨0, 2, 2, 2, 6, 6⟩] ≠
      some ⟨2, 2, 6, 6⟩ := by
  refine ⟨by norm_num [segSpan], by norm_num, ?_, ?_⟩ <;>
    simp only [pick_primary_crop, sortDescBy, insertDescBy, segSpan] <;>
    norm_num

/-- C8: if the selected (first-after-sorting) region has a non-positive
width or height, `pick_primary_crop` returns `None`; consequently any
rectangle it does return has positive width and height, so a zero-area crop
is never passed downstream. -/
theorem pick_primary_crop_rejects_degenerate :
    (∀ (segs : List Segment) (s : Segment) (rest : List Segment),
      sortDescBy segSpan segs = s :: rest → s.w ≤ 0 ∨ s.h ≤ 0 →
      pick_primary_crop segs = none) ∧
    (∀ (segs : List Segment) (r : Rect),
      pick_primary_crop segs = some r → 0 < r.w ∧ 0 < r.h) := by
  constructor
  · intro segs s rest hsort hdim
    have hnpos : ¬ 0 < min s.w s.h := by
      intro hpos
      rcases hdim with hw | hh
      · exact absurd (lt_of_lt_of_le hpos (min_le_left _ _)) (not_lt.mpr hw)
      · exact absurd (lt_of_lt_of_le hpos (min_le_right _ _)) (not_lt.mpr hh)
    rcases segs with _ | ⟨a, t⟩
    · rfl
    · simp only [pick_primary_crop, hsort, if_neg hnpos]
  · intro segs r hr
    rcases segs with _ | ⟨a, t⟩
    · exact absurd hr (by simp [pick_primary_crop])
    · rcases hsort : sortDescBy segSpan (a :: t) with _ | ⟨s, rest⟩
      · exact absurd hsort (by simp [sortDescBy_eq_nil_iff])
      · simp only [pick_primary_crop, hsort] at hr
        by_cases hpos : 0 < min s.w s.h
        · rw [if_pos hpos] at hr
          have hrect : (⟨s.x, s.y, s.w, s.h⟩ : Rect) = r := Option.some.inj hr
          rw [← hrect]
          exact ⟨lt_of_lt_of_le hpos (min_le_left _ _),
            lt_of_lt_of_le hpos (min_le_right _ _)⟩
        · rw [if_neg hpos] at hr
          exact absurd hr (by simp)

/-- Witness for C8: a single region with `w = 0` is rejected. -/
theorem pick_primary_crop_rejects_degenerate_witness :
    sortDescBy segSpan [(⟨0, 1, 3, 3, 0, 5⟩ : Segment)] =
      [(⟨0, 1, 3, 3, 0, 5⟩ : Segment)] ∧
    pick_primary_crop [(⟨0, 1, 3, 3, 0, 5⟩ : Segment)] = none := by
  have hsort : sortDescBy segSpan [(⟨0, 1, 3, 3, 0, 5⟩ : Segment)] =
      [(⟨0, 1, 3, 3, 0, 5⟩ : Segment)] := rfl
  exact ⟨hsort,
    pick_primary_crop_rejects_degenerate.1 _ _ _ hsort (Or.inl le_rfl)⟩

/-- The per-axis pre-clamp extent of `expand_crop_box`: `int(w * factor)`. -/
def axW (w : ℤ) (f : ℚ) : ℤ := pyInt ((w : ℚ) * f)

/-- The per-axis clamped origin of `expand_crop_box`:
`max(0, int(center - new_extent / 2))`. -/
def axX (x w : ℤ) (f : ℚ) : ℤ :=
  max 0 (pyInt ((x : ℚ) + (w : ℚ) / 2 - (axW w f : ℚ) / 2))

/-- The per-axis clamped extent of `expand_crop_box`:
`min(new_extent, frame - new_origin)`. -/
def axFW (x w fw : ℤ) (f : ℚ) : ℤ := min (axW w f) (fw - axX x w f)

lemma expand_crop_box_eq_ax (r : Rect) (fw fh : ℤ) (f : ℚ) :
    expand_crop_box r fw fh f =
      ⟨axX r.x r.w f, axX r.y r.h f, axFW r.x r.w fw f, axFW r.y r.h fh f⟩ :=
  rfl

lemma axW_nonneg {w : ℤ} {f : ℚ} (hw : 0 ≤ w) (hf : 0 ≤ f) : 0 ≤ axW w f := by
  unfold axW
  rw [pyInt_of_nonneg (mul_nonneg (by exact_mod_cast hw) hf)]
  exact Int.floor_nonneg.mpr (mul_nonneg (by exact_mod_cast hw) hf)

lemma axW_pos {w : ℤ} {f : ℚ} (hw : 0 < w) (hf : 1 ≤ f) : 0 < axW w f := by
  unfold axW
  have hw' : (0 : ℚ) ≤ (w : ℚ) := by exact_mod_cast hw.le
  rw [pyInt_of_nonneg (mul_nonneg hw' (le_trans zero_le_one hf))]
  calc (0 : ℤ) < w := hw
    _ ≤ ⌊(w : ℚ) * f⌋ := Int.le_floor.mpr (le_mul_of_one_le_right hw' hf)

lemma axW_mono {w : ℤ} {f₁ f₂ : ℚ} (hw : 0 ≤ w) (hf : f₁ ≤ f₂) :
    axW w f₁ ≤ axW w f₂ :=
  pyInt_mono (mul_le_mul_of_nonneg_left hf (by exact_mod_cast hw))

lemma axX_nonneg (x w : ℤ) (f : ℚ) : 0 ≤ axX x w f := le_max_left _ _

lemma axX_anti {x w : ℤ} {f₁ f₂ : ℚ} (hw : 0 ≤ w) (hf : f₁ ≤ f₂) :
    axX x w f₂ ≤ axX x w f₁ := by
  unfold axX
  refine max_le_max le_rfl (pyInt_mono ?_)
  have h := axW_mono hw hf
  have h' : (axW w f₁ : ℚ) ≤ (axW w f₂ : ℚ) := by exact_mod_cast h
  linarith

lemma axX_le_frame {x w fw : ℤ} {f : ℚ} (hx : 0 ≤ x) (hw : 0 ≤ w)
    (hxw : x + w ≤ fw) (hf : 0 ≤ f) : axX x w f ≤ fw := by
  unfold axX
  have hfw : (0 : ℤ) ≤ fw := le_trans (add_nonneg hx hw) hxw
  refine max_le hfw ?_
  have hWnn : (0 : ℚ) ≤ (axW w f : ℚ) := by exact_mod_cast axW_nonneg hw hf
  have hv : (x : ℚ) + (w : ℚ) / 2 - (axW w f : ℚ) / 2 ≤ (fw : ℚ) := by
    have hwq : (0 : ℚ) ≤ (w : ℚ) := by exact_mod_cast hw
    have hxwq : (x : ℚ) + (w : ℚ) ≤ (fw : ℚ) := by exact_mod_cast hxw
    linarith
  calc pyInt ((x : ℚ) + (w : ℚ) / 2 - (axW w f : ℚ) / 2)
      ≤ pyInt (fw : ℚ) := pyInt_mono hv
    _ = fw := by
        rw [pyInt_of_nonneg (by exact_mod_cast hfw)]
        exact Int.floor_intCast fw

lemma axFW_nonneg {x w fw : ℤ} {f : ℚ} (hx : 0 ≤ x) (hw : 0 ≤ w)
    (hxw : x + w ≤ fw) (hf : 0 ≤ f) : 0 ≤ axFW x w fw f :=
  le_min (axW_nonneg hw hf) (by linarith [axX_le_frame hx hw hxw hf])

lemma axFW_mono {x w fw : ℤ} {f₁ f₂ : ℚ} (hw : 0 ≤ w) (hf : f₁ ≤ f₂) :
    axFW x w fw f₁ ≤ axFW x w fw f₂ :=
  min_le_min (axW_mono hw hf) (sub_le_sub_left (axX_anti hw hf) fw)

/-- A rectangle lies entirely within the frame `[0,fw] × [0,fh]`. -/
def Rect.withinFrame (r : Rect) (fw fh : ℤ) : Prop :=
  0 ≤ r.x ∧ 0 ≤ r.y ∧ 0 ≤ r.w ∧ 0 ≤ r.h ∧ r.x + r.w ≤ fw ∧ r.y + r.h ≤ fh

instance (r : Rect) (fw fh : ℤ) : Decidable (r.withinFrame fw fh) := by
  unfold Rect.withinFrame; infer_instance

/-- C7: for a valid rectangle and factors `f₂ > f₁ ≥ 1`, the area of the
expanded rectangle at `f₂` is at least the area at `f₁`, and both expanded
rectangles lie entirely within `[0,fw] × [0,fh]`. -/
theorem expand_crop_box_area_mono (r : Rect) (fw fh : ℤ) (f₁ f₂ : ℚ)
    (hr : r.validIn fw fh) (h1 : 1 ≤ f₁) (h12 : f₁ < f₂) :
    (expand_crop_box r fw fh f₁).w * (expand_crop_box r fw fh f₁).h ≤
      (expand_crop_box r fw fh f₂).w * (expand_crop_box r fw fh f₂).h ∧
    (expand_crop_box r fw fh f₁).withinFrame fw fh ∧
    (expand_crop_box r fw fh f₂).withinFrame fw fh := by
  obtain ⟨hx, hy, hxw, hyh, hw, hh⟩ := hr
  have h1' : (0 : ℚ) ≤ f₁ := le_trans zero_le_one h1
  have h2' : (0 : ℚ) ≤ f₂ := le_trans h1' h12.le
  rw [expand_crop_box_eq_ax, expand_crop_box_eq_ax]
  unfold Rect.withinFrame
  dsimp only
  refine ⟨?_, ?_, ?_⟩
  · exact mul_le_mul (axFW_mono hw.le h12.le) (axFW_mono hh.le h12.le)
      (axFW_nonneg hy hh.le hyh h1') (axFW_nonneg hx hw.le hxw h2')
  · exact ⟨axX_nonneg _ _ _, axX_nonneg _ _ _,
      axFW_nonneg hx hw.le hxw h1', axFW_nonneg hy hh.le hyh h1',
      by have := min_le_right (axW r.w f₁) (fw - axX r.x r.w f₁)
         unfold axFW; omega,
      by have := min_le_right (axW r.h f₁) (fh - axX r.y r.h f₁)
         unfold axFW; omega⟩
  · exact ⟨axX_nonneg _ _ _, axX_nonneg _ _ _,
      axFW_nonneg hx hw.le hxw h2', axFW_nonneg hy hh.le hyh h2',
      by have := min_le_right (axW r.w f₂) (fw - axX r.x r.w f₂)
         unfold axFW; omega,
      by have := min_le_right (axW r.h f₂) (fh - axX r.y r.h f₂)
         unfold axFW; omega⟩

/-- Witness for C7: the spec's boundary example at factors `1` and `3`. -/
theorem expand_crop_box_area_mono_witness :
    (expand_crop_box ⟨0, 0, 100, 100⟩ 150 150 1).w *
        (expand_crop_box ⟨0, 0, 100, 100⟩ 150 150 1).h ≤
      (expand_crop_box ⟨0, 0, 100, 100⟩ 150 150 3).w *
        (expand_crop_box ⟨0, 0, 100, 100⟩ 150 150 3).h ∧
    (expand_crop_box ⟨0, 0, 100, 100⟩ 150 150 1).withinFrame 150 150 ∧
    (expand_crop_box ⟨0, 0, 100, 100⟩ 150 150 3).withinFrame 150 150 :=
  expand_crop_box_area_mono ⟨0, 0, 100, 100⟩ 150 150 1 3 (by decide)
    (by norm_num) (by norm_num)

/-- The backslash character. -/
def bsC : Char := '\\'

/-- The single-quote character (codepoint 39). -/
def sqC : Char := Char.ofNat 39

/-- The single-quote character as a one-character string. -/
def sqS : String := String.singleton sqC

/-- Python's `str.replace(old, new)` restricted to a one-character `old`
(the only form `design.py` uses): every occurrence of `needle` is replaced
by `repl`, scanning left to right. -/
def replaceChar (needle : Char) (repl : List Char) : List Char → List Char
  | [] => []
  | c :: cs =>
    if c = needle then repl ++ replaceChar needle repl cs
    else c :: replaceChar needle repl cs

/-- The function `escape_for_subtitles(path)` from `design.py`, on the path's character
list: replace backslash first, then colon, then comma, then single quote,
each by its backslash-escaped form. -/
def escape_for_subtitles (s : List Char) : List Char :=
  replaceChar sqC [bsC, sqC]
    (replaceChar ',' [bsC, ',']
      (replaceChar ':' [bsC, ':']
        (replaceChar bsC [bsC, bsC] s)))

/-- Independent per-character escaping: each special character becomes
backslash-plus-itself, every other character is kept.  `escape_for_subtitles`
agreeing with the pointwise extension of this map is exactly the claim that
no escape backslash introduced by a later substitution is itself
re-escaped. -/
def escChar (c : Char) : List Char :=
  if c = bsC then [bsC, bsC]
  else if c = ':' then [bsC, ':']
  else if c = ',' then [bsC, ',']
  else if c = sqC then [bsC, sqC]
  else [c]

/-- The constant `CAPTION_FONT` from `design.py`. -/
def CAPTION_FONT : String := "DejaVu Sans"

/-- The constant `CAPTION_STYLE` from `design.py` (the f-string with `CAPTION_FONT`
interpolated and its adjacent literals concatenated). -/
def CAPTION_STYLE : String :=
  s!"FontName={CAPTION_FONT}," ++
  "FontSize=13," ++
  "PrimaryColour=&H00FFFFFF&," ++
  "BackColour=&H80000000&," ++
  "Outline=0," ++
  "Shadow=0," ++
  "BorderStyle=3," ++
  "Alignment=2," ++
  "MarginV=120," ++
  "Bold=1," ++
  "WrapStyle=2"

/-- The value `CAPTION_STYLE.replace(",", "\\,")` computed in `build_filtergraph`:
the style string with its internal commas escaped, passed as the
`force_style` parameter value. -/
def style_escaped : String := ⟨replaceChar ',' [bsC, ','] CAPTION_STYLE.data⟩

/-- Scan for unescaped commas; the flag records whether the previous
character was a backslash able to escape the current one. -/
def commasEscapedAux : Bool → List Char → Bool
  | _, [] => true
  | afterBs, c :: rest =>
    if c = ',' then afterBs && commasEscapedAux false rest
    else if c = bsC then commasEscapedAux true rest
    else commasEscapedAux false rest

/-- Every comma in the character list is escaped: no comma appears without
an immediately preceding backslash. -/
def commasEscaped (l : List Char) : Bool := commasEscapedAux false l

lemma replaceChar_append (needle : Char) (repl : List Char) (a b : List Char) :
    replaceChar needle repl (a ++ b) =
      replaceChar needle repl a ++ replaceChar needle repl b := by
  induction a with
  | nil => simp [replaceChar]
  | cons c cs ih =>
    simp only [List.cons_append, replaceChar]
    split <;> simp [ih]

lemma escape_for_subtitles_append (a b : List Char) :
    escape_for_subtitles (a ++ b) =
      escape_for_subtitles a ++ escape_for_subtitles b := by
  unfold escape_for_subtitles
  rw [replaceChar_append, replaceChar_append, replaceChar_append,
    replaceChar_append]

lemma escape_for_subtitles_singleton (c : Char) :
    escape_for_subtitles [c] = escChar c := by
  unfold escape_for_subtitles escChar
  by_cases h1 : c = bsC
  · subst h1; decide
  · by_cases h2 : c = ':'
    · subst h2; decide
    · by_cases h3 : c = ','
      · subst h3; decide
      · by_cases h4 : c = sqC
        · subst h4; decide
        · simp [replaceChar, h1, h2, h3, h4]

set_option maxRecDepth 8192 in
/-- C3: `escape_for_subtitles` applies the backslash substitution first and
the colon/comma/quote substitutions afterwards, so it acts independently on
each character of the path — no escape backslash introduced by a later
substitution is re-escaped; and the `force_style` parameter value is
`CAPTION_STYLE` with every internal comma escaped. -/
theorem escape_for_subtitles_no_double_escape :
    (∀ s : List Char, escape_for_subtitles s = s.flatMap escChar) ∧
    escape_for_subtitles ("C:/a,b".data ++ [sqC] ++ "d".data) =
      ("C\\:/a\\,b".data ++ [bsC, sqC] ++ "d".data) ∧
    commasEscaped style_escaped.data = true := by
  refine ⟨?_, ?_, ?_⟩
  · intro s
    induction s with
    | nil => rfl
    | cons c cs ih =>
      have : c :: cs = [c] ++ cs := rfl
      rw [this, escape_for_subtitles_append, escape_for_subtitles_singleton,
        ih]
      simp
  · decide
  · decide

/-- The background stage appended first in `build_filtergraph`:
scale-to-cover, blur, crop to the canvas. -/
def bg_stage (out_w out_h : ℤ) : String :=
  s!"[0:v]scale={sqS}if(gte(iw/ih,{out_w}/{out_h}),-1,{out_w}){sqS}:{sqS}if(gte(iw/ih,{out_w}/{out_h}),{out_h},-1){sqS},boxblur=24:1,crop={out_w}:{out_h}[bg]"

/-- The foreground stage when a usable crop box is present: crop the source
to exactly that rectangle. -/
def fg_crop_stage (x y w h : ℤ) : String :=
  s!"[0:v]crop={w}:{h}:{x}:{y}[fg]"

/-- The foreground fallback stage: the deterministic centered 9:16 crop. -/
def fg_center_stage : String :=
  "[0:v]" ++
  "crop=" ++
  "iw*min(1.0\\,ih/iw*9/16):" ++
  "ih*min(1.0\\,iw/ih*16/9):" ++
  "(iw - iw*min(1.0\\,ih/iw*9/16))/2:" ++
  "(ih - ih*min(1.0\\,iw/ih*16/9))/2[fg]"

/-- The foreground stage chosen by `build_filtergraph`: the exact-rectangle
crop requires `crop_box` to be present and ALL FOUR of its components to be
positive (`if crop_box and all(v > 0 for v in crop_box)`); anything else
falls back to the centered 9:16 crop. -/
def fg_stage_for (crop_box : Option Rect) : String :=
  match crop_box with
  | some cb =>
    if 0 < cb.x ∧ 0 < cb.y ∧ 0 < cb.w ∧ 0 < cb.h then
      fg_crop_stage cb.x cb.y cb.w cb.h
    else fg_center_stage
  | none => fg_center_stage

/-- The first composite stage: fit the foreground into the canvas,
shrink-only, preserving aspect ratio. -/
def fit_stage (out_w out_h : ℤ) : String :=
  s!"[fg]scale={out_w}:{out_h}:force_original_aspect_ratio=decrease[fgs]"

/-- The second composite stage: overlay the fitted foreground centered on
the blurred background. -/
def composite_stage : String := "[bg][fgs]overlay=(W-w)/2:(H-h)/2[base]"

/-- The optional caption stage: burn the subtitle file (path escaped by
`escape_for_subtitles`) with the comma-escaped `CAPTION_STYLE` passed as the
`force_style` parameter value. -/
def caption_stage (base_label : String) (srt_escaped : String) : String :=
  s!"{base_label}subtitles={sqS}{srt_escaped}{sqS}:force_style={sqS}{style_escaped}{sqS}[base2]"

/-- The final stage: the full-canvas template overlay at origin (0,0),
producing the output stream. -/
def overlay_stage (base_label : String) : String :=
  s!"{base_label}[1:v]overlay=0:0[outv]"

/-- The `parts` list built by `build_filtergraph(crop_box, out_w, out_h,
srt_path)` in `design.py`, in append order: background, foreground,
fit-scale, composite overlay, optional caption (with the base label advanced
from `[base]` to `[base2]`), template overlay. -/
def build_parts (crop_box : Option Rect) (out_w out_h : ℤ)
    (srt_path : Option String) : List String :=
  let parts := [bg_stage out_w out_h]
  let parts := parts ++ [fg_stage_for crop_box]
  let parts := parts ++ [fit_stage out_w out_h]
  let parts := parts ++ [composite_stage]
  match srt_path with
  | some p =>
    (parts ++ [caption_stage "[base]" ⟨escape_for_subtitles p.data⟩]) ++
      [overlay_stage "[base2]"]
  | none => parts ++ [overlay_stage "[base]"]

/-- The function `build_filtergraph` returns the parts joined with commas
(`",".join(parts)`). -/
def build_filtergraph (crop_box : Option Rect) (out_w out_h : ℤ)
    (srt_path : Option String) : String :=
  String.intercalate "," (build_parts crop_box out_w out_h srt_path)

/-- C4: with no subtitle the graph is exactly
background → foreground → composite (fit then overlay) → template overlay,
with no caption stage; with a subtitle exactly one caption stage is
inserted, after the composite stage and before the template overlay, which
then reads from the caption output label `[base2]`. -/
theorem build_filtergraph_stage_order (crop_box : Option Rect)
    (out_w out_h : ℤ) :
    build_parts crop_box out_w out_h none =
      [bg_stage out_w out_h, fg_stage_for crop_box, fit_stage out_w out_h,
        composite_stage, overlay_stage "[base]"] ∧
    ∀ p : String, build_parts crop_box out_w out_h (some p) =
      [bg_stage out_w out_h, fg_stage_for crop_box, fit_stage out_w out_h,
        composite_stage,
        caption_stage "[base]" ⟨escape_for_subtitles p.data⟩,
        overlay_stage "[base2]"] :=
  ⟨rfl, fun _ => rfl⟩

/-- C2's divergence, evaluated: a crop box with `x = 0` (or `y = 0`) and
positive extents — such as the expanded box `(0,0,150,150)` the geometry
module produces at a frame edge — is rejected by the all-components-positive
test, so the emitted foreground stage is the centered fallback, not the
exact-rectangle crop; a box with all components positive does get the
exact crop. -/
theorem build_fg_ignores_zero_origin :
    fg_stage_for (some ⟨0, 0, 100, 100⟩) = fg_center_stage ∧
    fg_stage_for (some ⟨0, 0, 150, 150⟩) = fg_center_stage ∧
    fg_stage_for (some ⟨1, 1, 100, 100⟩) = fg_crop_stage 1 1 100 100 ∧
    fg_crop_stage 1 1 100 100 ≠ fg_center_stage ∧
    build_parts (some ⟨0, 0, 100, 100⟩) 1080 1920 none =
      [bg_stage 1080 1920, fg_center_stage, fit_stage 1080 1920,
        composite_stage, overlay_stage "[base]"] := by
  refine ⟨rfl, rfl, ?_, by decide, rfl⟩
  unfold fg_stage_for
  norm_num

/-- The `--subs_mode` choices `off | auto | file` of `main()`. -/
inductive SubsMode
  | off
  | auto
  | file
deriving DecidableEq, Repr

/-- The parsed command-line arguments of `main()` that the driver loop
reads. -/
structure Args where
  subs_mode : SubsMode
  subs_file : String
  subs_dir : String
  disable_smart_crop : Bool
  pyannote_token : String
  crop_expansion : ℚ
  width : ℤ
  height : ℤ
deriving DecidableEq, Repr

/-- An input clip, as the pieces of its path the driver uses: directory and
stem. -/
structure Clip where
  dir : String
  stem : String
deriving DecidableEq, Repr

/-- The path `clip.with_suffix(".srt")`: the subtitle file co-located with the
clip. -/
def clipSrtPath (c : Clip) : String := c.dir ++ "/" ++ c.stem ++ ".srt"

/-- The path `Path(args.subs_dir) / (clip.stem + ".srt")`: the search-directory
candidate. -/
def dirSrtPath (subs_dir : String) (c : Clip) : String :=
  subs_dir ++ "/" ++ c.stem ++ ".srt"

/-- The per-clip subtitle resolution of `main()` (the `srt` decision),
against an existence oracle for the filesystem; the second component records
whether the missing-file warning was printed.  `mode=file` is only entered
when `args.subs_file` is non-empty; `mode=auto` prefers the co-located file;
every other case (including `mode=off`) leaves `srt = None`. -/
def locate_srt (args : Args) (onDisk : String → Bool) (clip : Clip) :
    Option String × Bool :=
  if args.subs_mode = SubsMode.file ∧ args.subs_file ≠ "" then
    if onDisk args.subs_file then (some args.subs_file, false)
    else (none, true)
  else if args.subs_mode = SubsMode.auto then
    if onDisk (clipSrtPath clip) then (some (clipSrtPath clip), false)
    else if onDisk (dirSrtPath args.subs_dir clip) then
      (some (dirSrtPath args.subs_dir clip), false)
    else (none, false)
  else (none, false)

/-- The per-clip crop resolution of `main()`: `None` when smart crop is
disabled or the detector token is empty; otherwise call the detector
(`resize`), pick the primary crop, and expand it (probing the clip's true
dimensions) when a crop was found and the factor is not `1`.  The
`try/except` absorbs a raising detector as `None`, and a raising probe
leaves the unexpanded crop (the last value assigned before the raise). -/
def resolve_crop (args : Args)
    (detector : Clip → Except String (List Segment))
    (probe : Clip → Except String (ℤ × ℤ)) (clip : Clip) : Option Rect :=
  if args.disable_smart_crop then none
  else if args.pyannote_token ≠ "" then
    match detector clip with
    | .error _ => none
    | .ok segs =>
      match pick_primary_crop segs with
      | none => none
      | some r =>
        if args.crop_expansion ≠ 1 then
          match probe clip with
          | .error _ => some r
          | .ok (vw, vh) => some (expand_crop_box r vw vh args.crop_expansion)
        else some r
  else none

/-- The unit of work handed to `ff_design`: the clip together with the
resolved crop, subtitle reference and canvas size. -/
structure RenderJob where
  src : Clip
  crop : Option Rect
  srt : Option String
  out_w : ℤ
  out_h : ℤ
deriving DecidableEq, Repr

/-- The per-clip body of the driver loop: resolve subtitles, resolve the
crop, and assemble the render job. -/
def jobFor (args : Args) (onDisk : String → Bool)
    (detector : Clip → Except String (List Segment))
    (probe : Clip → Except String (ℤ × ℤ)) (clip : Clip) : RenderJob :=
  ⟨clip, resolve_crop args detector probe clip,
    (locate_srt args onDisk clip).1, args.width, args.height⟩

/-- The driver loop of `main()` over the sorted clip list: each clip is
rendered via the external engine (`run` uses `subprocess.run(check=True)`,
so a non-zero exit raises).  The result is the list of successfully rendered
jobs, in order, with the first render error if one occurred; an uncaught
render error aborts the loop, so no later clip is processed, while outputs
already written remain. -/
def mainLoop (args : Args) (onDisk : String → Bool)
    (detector : Clip → Except String (List Segment))
    (probe : Clip → Except String (ℤ × ℤ))
    (render : RenderJob → Except String Unit) :
    List Clip → List RenderJob × Option String
  | [] => ([], none)
  | clip :: rest =>
    let job := jobFor args onDisk detector probe clip
    match render job with
    | .error e => ([], some e)
    | .ok _ =>
      let out := mainLoop args onDisk detector probe render rest
      (job :: out.1, out.2)

/-- C9: subtitle resolution per clip — `mode=off` yields `None` whatever is
on disk; `mode=file` with a named but missing file yields `None` plus the
warning (no exception: `locate_srt` is total); `mode=auto` with both the
co-located and the search-directory candidates present picks the co-located
file. -/
theorem locate_srt_modes (args : Args) (onDisk : String → Bool) (clip : Clip) :
    (args.subs_mode = SubsMode.off →
      locate_srt args onDisk clip = (none, false)) ∧
    (args.subs_mode = SubsMode.file → args.subs_file ≠ "" →
      onDisk args.subs_file = false →
      locate_srt args onDisk clip = (none, true)) ∧
    (args.subs_mode = SubsMode.auto →
      onDisk (clipSrtPath clip) = true →
      onDisk (dirSrtPath args.subs_dir clip) = true →
      locate_srt args onDisk clip = (some (clipSrtPath clip), false)) := by
  refine ⟨?_, ?_, ?_⟩
  · intro h
    simp [locate_srt, h]
  · intro h hne hmiss
    simp [locate_srt, h, hne, hmiss]
  · intro h hco _
    simp [locate_srt, h, hco]

/-- Witness for C9: the three mode scenarios at concrete arguments. -/
theorem locate_srt_modes_witness :
    locate_srt ⟨SubsMode.off, "x.srt", "subs", false, "", 3, 1080, 1920⟩
        (fun _ => true) ⟨"clips", "clip_1"⟩ = (none, false) ∧
    locate_srt ⟨SubsMode.file, "x.srt", "subs", false, "", 3, 1080, 1920⟩
        (fun _ => false) ⟨"clips", "clip_1"⟩ = (none, true) ∧
    locate_srt ⟨SubsMode.auto, "", "subs", false, "", 3, 1080, 1920⟩
        (fun _ => true) ⟨"clips", "clip_1"⟩ =
      (some (clipSrtPath ⟨"clips", "clip_1"⟩), false) :=
  ⟨(locate_srt_modes _ _ _).1 rfl,
   (locate_srt_modes _ _ _).2.1 rfl (by decide) rfl,
   (locate_srt_modes _ _ _).2.2 rfl rfl rfl⟩

/-- C5: in a 3-clip batch where the detector raises on the second clip (and
smart crop is enabled with a detector token configured), the exception is
absorbed: all three clips are still rendered, in order, and the second
clip's job carries no crop, which makes `build_filtergraph` emit the
centered-crop fallback foreground stage for it. -/
theorem batch_survives_detection_failure (args : Args)
    (onDisk : String → Bool)
    (detector : Clip → Except String (List Segment))
    (probe : Clip → Except String (ℤ × ℤ))
    (render : RenderJob → Except String Unit)
    (c1 c2 c3 : Clip) (e : String)
    (hdet : detector c2 = .error e)
    (hsc : args.disable_smart_crop = false)
    (htok : args.pyannote_token ≠ "")
    (hren : ∀ j, render j = .ok ()) :
    (mainLoop args onDisk detector probe render [c1, c2, c3]).2 = none ∧
    (mainLoop args onDisk detector probe render [c1, c2, c3]).1.map
        RenderJob.src = [c1, c2, c3] ∧
    (mainLoop args onDisk detector probe render [c1, c2, c3]).1.map
        RenderJob.crop =
      [resolve_crop args detector probe c1, none,
        resolve_crop args detector probe c3] ∧
    fg_stage_for none = fg_center_stage := by
  have h2 : resolve_crop args detector probe c2 = none := by
    simp [resolve_crop, hsc, htok, hdet]
  refine ⟨?_, ?_, ?_, rfl⟩ <;>
    simp [mainLoop, hren, jobFor, h2]

/-- Witness for C5: a concrete 3-clip batch whose detector raises exactly on
the middle clip. -/
theorem batch_survives_detection_failure_witness :
    (mainLoop ⟨SubsMode.off, "", "subs", false, "tok", 3, 1080, 1920⟩
        (fun _ => false)
        (fun c => if c = ⟨"clips", "clip_2"⟩ then .error "boom" else .ok [])
        (fun _ => .ok (1920, 1080)) (fun _ => .ok ())
        [⟨"clips", "clip_1"⟩, ⟨"clips", "clip_2"⟩, ⟨"clips", "clip_3"⟩]).2 =
      none ∧
    (mainLoop ⟨SubsMode.off, "", "subs", false, "tok", 3, 1080, 1920⟩
        (fun _ => false)
        (fun c => if c = ⟨"clips", "clip_2"⟩ then .error "boom" else .ok [])
        (fun _ => .ok (1920, 1080)) (fun _ => .ok ())
        [⟨"clips", "clip_1"⟩, ⟨"clips", "clip_2"⟩, ⟨"clips", "clip_3"⟩]).1.map
        RenderJob.src =
      [⟨"clips", "clip_1"⟩, ⟨"clips", "clip_2"⟩, ⟨"clips", "clip_3"⟩] ∧
    (mainLoop ⟨SubsMode.off, "", "subs", false, "tok", 3, 1080, 1920⟩
        (fun _ => false)
        (fun c => if c = ⟨"clips", "clip_2"⟩ then .error "boom" else .ok [])
        (fun _ => .ok (1920, 1080)) (fun _ => .ok ())
        [⟨"clips", "clip_1"⟩, ⟨"clips", "clip_2"⟩, ⟨"clips", "clip_3"⟩]).1.map
        RenderJob.crop =
      [resolve_crop ⟨SubsMode.off, "", "subs", false, "tok", 3, 1080, 1920⟩
          (fun c => if c = ⟨"clips", "clip_2"⟩ then .error "boom" else .ok [])
          (fun _ => .ok (1920, 1080)) ⟨"clips", "clip_1"⟩, none,
        resolve_crop ⟨SubsMode.off, "", "subs", false, "tok", 3, 1080, 1920⟩
          (fun c => if c = ⟨"clips", "clip_2"⟩ then .error "boom" else .ok [])
          (fun _ => .ok (1920, 1080)) ⟨"clips", "clip_3"⟩] ∧
    fg_stage_for none = fg_center_stage :=
  batch_survives_detection_failure _ _ _ _ _ _ _ _ "boom" rfl rfl
    (by decide) (fun _ => rfl)

/-- C10: the driver does not catch render errors — if the engine fails on
the second clip, the batch aborts with that error: the first clip's
completed output remains, and neither the failing clip nor any later clip
contributes an output. -/
theorem render_failure_aborts_batch (args : Args) (onDisk : String → Bool)
    (detector : Clip → Except String (List Segment))
    (probe : Clip → Except String (ℤ × ℤ))
    (render : RenderJob → Except String Unit)
    (c1 c2 c3 : Clip) (e : String)
    (h1 : render (jobFor args onDisk detector probe c1) = .ok ())
    (h2 : render (jobFor args onDisk detector probe c2) = .error e) :
    mainLoop args onDisk detector probe render [c1, c2, c3] =
      ([jobFor args onDisk detector probe c1], some e) := by
  simp [mainLoop, h1, h2]

/-- Witness for C10: a concrete 3-clip batch whose renderer fails exactly on
the middle clip. -/
theorem render_failure_aborts_batch_witness :
    mainLoop ⟨SubsMode.off, "", "subs", true, "", 1, 1080, 1920⟩
        (fun _ => false) (fun _ => .ok []) (fun _ => .ok (1920, 1080))
        (fun j => if j.src = ⟨"clips", "clip_2"⟩ then .error "exit 1"
          else .ok ())
        [⟨"clips", "clip_1"⟩, ⟨"clips", "clip_2"⟩, ⟨"clips", "clip_3"⟩] =
      ([jobFor ⟨SubsMode.off, "", "subs", true, "", 1, 1080, 1920⟩
          (fun _ => false) (fun _ => .ok []) (fun _ => .ok (1920, 1080))
          ⟨"clips", "clip_1"⟩], some "exit 1") :=
  render_failure_aborts_batch _ _ _ _ _ _ _ _ "exit 1" rfl rfl
